import Mathlib

/-!
Verification of the AutoSpark core (task store, text serializer, script
compiler) against its natural-language specification.  The Python source
(`task_manager.py`, `file_handler.py`) is embedded shallowly: task records
become a structure, the serializer and compiler become pure functions on
strings and line lists, and file writes become explicit event lists.
-/

set_option maxRecDepth 8192

namespace AutoSpark

/-- A task record, mirroring the Python dict
`{"type": ..., "details": ..., "additional": ...}` used throughout the
application (`task_manager.py`, `file_handler.py`). -/
structure Task where
  type : String
  details : String
  additional : String
deriving Repr, DecidableEq

/-- Placeholder task used as the default for out-of-range list reads.
All guarded accesses in the embedded code are in bounds, so the value is
irrelevant. -/
def emptyTask : Task := ⟨"", "", ""⟩

/-! ### Task store (`task_manager.py`)

The store's list `self._tasks` is modelled as a `List Task`; each mutating
method becomes a function returning the Python `bool` result together with
the new list. -/

/-- `TaskManager.move_task_up` (task_manager.py:56-69): if
`0 < index < len(tasks)`, swap the element at `index` with its predecessor
and return `True`; otherwise return `False` and leave the list unchanged. -/
def move_task_up (tasks : List Task) (index : Nat) : Bool × List Task :=
  if 0 < index ∧ index < tasks.length then
    (true, (tasks.set index (tasks.getD (index - 1) emptyTask)).set (index - 1)
      (tasks.getD index emptyTask))
  else
    (false, tasks)

/-- `TaskManager.move_task_down` (task_manager.py:71-84): if
`0 ≤ index < len(tasks) - 1`, swap the element at `index` with its successor
and return `True`; otherwise return `False` and leave the list unchanged. -/
def move_task_down (tasks : List Task) (index : Nat) : Bool × List Task :=
  if index < tasks.length - 1 then
    (true, (tasks.set index (tasks.getD (index + 1) emptyTask)).set (index + 1)
      (tasks.getD index emptyTask))
  else
    (false, tasks)

/-- `TaskManager.delete_task` (task_manager.py:41-54): delete at `index`
when `0 ≤ index < len(tasks)`, else fail and leave the list unchanged. -/
def delete_task (tasks : List Task) (index : Nat) : Bool × List Task :=
  if index < tasks.length then
    (true, tasks.eraseIdx index)
  else
    (false, tasks)

/-! ### Python string primitives

The serializer and parser use CPython string methods; these are embedded
over `List Char`. -/

/-- The whitespace set of CPython's `str.strip()` (ASCII part). -/
def pyWs (c : Char) : Bool :=
  c == ' ' || c == '\t' || c == '\n' || c == '\r' || c == '\x0b' || c == '\x0c'

/-- CPython `str.strip()` on a character list. -/
def pyStripL (l : List Char) : List Char :=
  ((l.dropWhile pyWs).reverse.dropWhile pyWs).reverse

/-- CPython `str.strip()`. -/
def pyStrip (s : String) : String := ⟨pyStripL s.data⟩

/-- Helper for `splitLinesL`; the accumulator holds the current line
reversed. -/
def splitLinesAux : List Char → List Char → List (List Char)
  | [], acc => [acc.reverse]
  | c :: rest, acc =>
      if c == '\n' then acc.reverse :: splitLinesAux rest []
      else splitLinesAux rest (c :: acc)

/-- CPython `str.split('\n')`: split at every newline, keeping empty
pieces. -/
def splitLinesL (l : List Char) : List (List Char) := splitLinesAux l []

/-- Helper for `splitOnce`. -/
def splitOnceAux (sep : Char) : List Char → List Char → List (List Char)
  | [], acc => [acc.reverse]
  | c :: rest, acc =>
      if c == sep then [acc.reverse, rest]
      else splitOnceAux sep rest (c :: acc)

/-- CPython `str.split(sep, 1)`: split at the first occurrence of `sep`
only; one piece when `sep` is absent, two pieces otherwise. -/
def splitOnce (sep : Char) (l : List Char) : List (List Char) :=
  splitOnceAux sep l []

/-- CPython `str.find(c)` for a character known to occur (the embedded code
only calls it under an `in` guard): index of the first occurrence. -/
def pyFind (c : Char) (l : List Char) : Nat := l.findIdx (fun x => x == c)

/-- Second component of CPython `int(s)`'s digit grammar:
after the first digit, digits optionally separated by single
underscores. -/
def digitsRest : List Char → Bool
  | [] => true
  | '_' :: c :: rest => c.isDigit && digitsRest rest
  | c :: rest => c.isDigit && digitsRest rest

/-- CPython `int(s)`'s digit grammar: a nonempty digit string with single
internal underscores allowed. -/
def pyDigitsOK : List Char → Bool
  | [] => false
  | c :: rest => c.isDigit && digitsRest rest

/-- Numeric value of a valid digit string (underscores ignored). -/
def digitsVal (l : List Char) : Nat :=
  l.foldl (fun acc c => if c == '_' then acc else acc * 10 + (c.toNat - 48)) 0

/-- CPython `int(s)` for base 10: optional surrounding whitespace, optional
sign, then the digit grammar; `none` models the `ValueError` raise.
(Non-ASCII decimal digits are not modelled.) -/
def pyIntL (l : List Char) : Option Int :=
  match pyStripL l with
  | '+' :: rest => if pyDigitsOK rest then some (digitsVal rest) else none
  | '-' :: rest => if pyDigitsOK rest then some (-(digitsVal rest : Int)) else none
  | rest => if pyDigitsOK rest then some (digitsVal rest) else none

/-- CPython `int(s)` on a `String`. -/
def pyInt (s : String) : Option Int := pyIntL s.data

/-- CPython `str.endswith(pat)`. -/
def pyEndsWith (s pat : String) : Bool := pat.data.isSuffixOf s.data

/-- ASCII lowering of one character (the `.lower()` calls in the source only
matter on ASCII input: the `".txt"` suffix test and the scan-type words). -/
def pyLowerChar (c : Char) : Char :=
  if 'A' ≤ c ∧ c ≤ 'Z' then Char.ofNat (c.toNat + 32) else c

/-- CPython `str.lower()` (ASCII part). -/
def pyLower (s : String) : String := ⟨s.data.map pyLowerChar⟩

/-- `details.replace('/', '\\')` — path normalization used by the
filesystem-affecting compiler branches (file_handler.py, several places). -/
def winPath (s : String) : String :=
  ⟨s.data.map (fun c => if c == '/' then '\\' else c)⟩

/-- `os.path.basename` for Windows paths: the text after the last `/`, `\`
or drive `:` (ntpath semantics). -/
def basenameWin (p : String) : String :=
  ⟨p.data.foldl (fun acc c => if c == '/' || c == '\\' || c == ':' then [] else acc ++ [c]) []⟩

/-- Index of the last character satisfying `pred`, if any. -/
def lastIdxOf (pred : Char → Bool) (l : List Char) : Option Nat :=
  (l.foldl (fun (st : Nat × Option Nat) c =>
    (st.1 + 1, if pred c then some st.1 else st.2)) (0, none)).2

/-- `os.path.splitext` (ntpath): split off the extension at the last dot,
provided that dot comes after the last path separator and the basename does
not consist solely of leading dots up to it. -/
def splitextWin (p : String) : String × String :=
  let l := p.data
  let dotIdx := lastIdxOf (fun c => c == '.') l
  match dotIdx with
  | none => (p, "")
  | some di =>
      let si : Nat :=
        match lastIdxOf (fun c => c == '/' || c == '\\') l with
        | none => 0
        | some s => s + 1
      if si ≤ di ∧ ((l.drop si).take (di - si)).any (fun c => c != '.') then
        (⟨l.take di⟩, ⟨l.drop di⟩)
      else (p, "")

/-- `FileHandler.get_bat_path` (file_handler.py:358-370):
`os.path.splitext(txt_file_path)[0] + '.bat'`. -/
def get_bat_path (txt_file_path : String) : String :=
  (splitextWin txt_file_path).1 ++ ".bat"

/-! ### Text serializer (`FileHandler.save_tasks`, text part) -/

/-- Concatenation of successive write chunks. -/
def concatTexts : List String → String
  | [] => ""
  | s :: rest => s ++ concatTexts rest

/-- The single line `save_tasks` writes for one task
(file_handler.py:47-50): `[type] | details`, with ` | additional` appended
when `additional` is non-empty, then a newline. -/
def taskLine (t : Task) : String :=
  "[" ++ t.type ++ "] | " ++ t.details ++
    (if t.additional = "" then "" else " | " ++ t.additional) ++ "\n"

/-- The text content `save_tasks` writes (file_handler.py:35-50): a
three-line comment header (whose second line embeds the `time.strftime`
timestamp, passed here as `now`), a blank line, then one line per task. -/
def serializeText (now : String) (tasks : List Task) : String :=
  "# AutoSpark Application - Task List\n" ++
  ("# Generated on: " ++ now ++ "\n") ++
  "# Format: [Task Type] | [Details] | [Additional Info (optional)]\n\n" ++
  concatTexts (tasks.map taskLine)

/-! ### Text parser (`FileHandler.parse_text_to_tasks`) -/

/-- The body of the parsing loop (file_handler.py:100-129) for one raw
line: strip; skip empty and `#`-comment lines; accept lines that start with
`[` and contain `]` and `|`; extract `type` between `[` and the first `]`,
then split the stripped remainder at the first `|` into `details` and an
optional remainder, which is split once more at `|` for `additional`. -/
def parseLine (rawLine : List Char) : Option Task :=
  let line := pyStripL rawLine
  if line = [] then none
  else if line.headD ' ' == '#' then none
  else if line.headD ' ' == '[' && line.contains ']' && line.contains '|' then
    let tEnd := pyFind ']' line
    let task_type : String := ⟨pyStripL ((line.take tEnd).drop 1)⟩
    let rest := pyStripL (line.drop (tEnd + 1))
    match (splitOnce '|' rest).map pyStripL with
    | [d] => some ⟨task_type, ⟨d⟩, ""⟩
    | [d, a1] =>
        if a1.contains '|' then
          some ⟨task_type, ⟨d⟩, ⟨pyStripL ((splitOnce '|' a1).headD [])⟩⟩
        else
          some ⟨task_type, ⟨d⟩, ⟨pyStripL a1⟩⟩
    | _ => none
  else none

/-- `FileHandler.parse_text_to_tasks` (file_handler.py:86-131): strip the
content, split into lines, and run the loop body on every line, appending
each parsed task. -/
def parse_text_to_tasks (content : String) : List Task :=
  (splitLinesL (pyStripL content.data)).foldl
    (fun tasks line =>
      match parseLine line with
      | some t => tasks ++ [t]
      | none => tasks) []

/-! ### Script compiler (`FileHandler.convert_to_bat`)

The generated batch script is modelled as the list of its lines, in the
order the Python code writes them (each `f.write` contributes its
newline-separated pieces).  The `int(details)` call in the `delay` branch
is the only raising operation; the model keeps the lines written before the
raise, matching the incremental file writes. -/

/-- CPython `str.startswith(pat)`. -/
def pyStartsWith (s pat : String) : Bool := pat.data.isPrefixOf s.data

/-- `url.startswith` scheme test of `FileHandler._write_url_code`
(file_handler.py:384-385). -/
def hasScheme (url : String) : Bool :=
  pyStartsWith url "http://" || pyStartsWith url "https://" ||
  pyStartsWith url "ftp://" || pyStartsWith url "file://"

/-- Lines written by `FileHandler._write_url_code`
(file_handler.py:372-401). -/
def urlLines (url : String) : List String :=
  ["echo Opening URL in default web browser..."] ++
  (if hasScheme url then []
   else ["echo No protocol specified, using https:// by default"]) ++
  (let u := if hasScheme url then url else "https://" ++ url
   ["echo Using start command...",
    "start \"\" \"" ++ u ++ "\"",
    "if %ERRORLEVEL% NEQ 0 (",
    "    echo ERROR: Failed to open URL.",
    "    echo URL: " ++ u,
    ") else (",
    "    echo Successfully opened URL: " ++ u,
    ")",
    "",
    ":url_end"])

/-- The single PowerShell command line of the `screenshot` branch
(file_handler.py:199-209), assembled from consecutive `f.write` pieces
without intermediate newlines. -/
def screenshotPsLine (p : String) : String :=
  "powershell -NoProfile -ExecutionPolicy Bypass -Command \"$ts=Get-Date -Format \\\"yyyy-MM-dd_HH-mm-ss\\\"; " ++
  ("$path=\\\"" ++ p ++ "\\screenshot_$ts.png\\\"; ") ++
  "[void][Reflection.Assembly]::LoadWithPartialName(\\\"System.Windows.Forms\\\"); " ++
  "[void][Reflection.Assembly]::LoadWithPartialName(\\\"System.Drawing\\\"); " ++
  "$bounds = [System.Windows.Forms.Screen]::PrimaryScreen.Bounds; " ++
  "$bmp = New-Object System.Drawing.Bitmap $bounds.Width, $bounds.Height; " ++
  "$g = [System.Drawing.Graphics]::FromImage($bmp); " ++
  "$g.CopyFromScreen($bounds.X, $bounds.Y, 0, 0, $bounds.Size); " ++
  "$bmp.Save($path); " ++
  "$g.Dispose(); $bmp.Dispose(); " ++
  "Write-Host \\\"Screenshot saved to: $path\\\"\""

/-- `delete_file` branch lines (file_handler.py:229-245); `p` is the
already-normalized path. -/
def deleteFileLines (p : String) : List String :=
  ["echo Deleting file: " ++ p,
   "if exist \"" ++ p ++ "\" (",
   "  del /F /Q \"" ++ p ++ "\"",
   "  echo Return code: %ERRORLEVEL%",
   "  if %ERRORLEVEL% NEQ 0 (",
   "    echo ERROR: Failed to delete file with code %ERRORLEVEL%",
   "  ) else (",
   "    echo Successfully deleted file: " ++ p,
   "  )",
   ") else (",
   "  echo WARNING: File not found: " ++ p,
   ")"]

/-- `empty_folder` branch lines (file_handler.py:246-265). -/
def emptyFolderLines (p : String) : List String :=
  ["echo Emptying folder: " ++ p,
   "if exist \"" ++ p ++ "\" (",
   "  echo Deleting all subfolders in: " ++ p,
   "  for /d %%i in (\"" ++ p ++ "\\*\") do (",
   "    rmdir /s /q \"%%i\" >nul 2>&1",
   "  )",
   "  echo Deleting all files in: " ++ p,
   "  del /f /q \"" ++ p ++ "\\*\" >nul 2>&1",
   "  echo Return code: %ERRORLEVEL%",
   "  if %ERRORLEVEL% NEQ 0 (",
   "    echo ERROR: Failed to empty folder with code %ERRORLEVEL%",
   "  ) else (",
   "    echo Successfully emptied folder: " ++ p,
   "  )",
   ") else (",
   "  echo WARNING: Folder not found: " ++ p,
   ")"]

/-- `delete_folder` branch lines (file_handler.py:266-282). -/
def deleteFolderLines (p : String) : List String :=
  ["echo Deleting folder: " ++ p,
   "if exist \"" ++ p ++ "\" (",
   "  rmdir /s /q \"" ++ p ++ "\"",
   "  echo Return code: %ERRORLEVEL%",
   "  if %ERRORLEVEL% NEQ 0 (",
   "    echo ERROR: Failed to delete folder with code %ERRORLEVEL%",
   "  ) else (",
   "    echo Successfully deleted folder and its contents: " ++ p,
   "  )",
   ") else (",
   "  echo WARNING: Folder not found: " ++ p,
   ")"]

/-- `delete_folder_if_empty` branch lines (file_handler.py:283-295): a
non-recursive `rmdir /q`, then a re-check of existence distinguishing the
warning and success reports; missing folders get a not-found warning. -/
def deleteIfEmptyLines (p : String) : List String :=
  ["echo Attempting to delete folder (only if empty): " ++ p,
   "if exist \"" ++ p ++ "\" (",
   "  rmdir /q \"" ++ p ++ "\"",
   "  if exist \"" ++ p ++ "\" (",
   "    echo WARNING: Could not delete folder " ++ p ++ " — it may not be empty or is locked",
   "  ) else (",
   "    echo Successfully deleted empty folder: " ++ p,
   "  )",
   ") else (",
   "  echo WARNING: Folder not found: " ++ p,
   ")"]

/-- `backup_folder` branch lines (file_handler.py:296-343): source
existence check, destination creation with error checks, `xcopy`, and the
per-block `:backup_error` / `:backup_end` labels. -/
def backupLines (s d : String) : List String :=
  ["echo Backing up folder: " ++ s,
   "echo to: " ++ d,
   "if not exist \"" ++ s ++ "\" (",
   "  echo ERROR: Source folder not found: " ++ s,
   "  goto :backup_error",
   ")",
   "if not exist \"" ++ d ++ "\" (",
   "  mkdir \"" ++ d ++ "\"",
   "  if %ERRORLEVEL% NEQ 0 (",
   "    echo ERROR: Could not create destination folder: " ++ d,
   "    goto :backup_error",
   "  )",
   ")",
   "for %%I in (\"" ++ s ++ "\") do set \"source_name=%%~nxI\"",
   "set \"dest_path=" ++ d ++ "\\%source_name%\"",
   "if not exist \"%dest_path%\" (",
   "  mkdir \"%dest_path%\"",
   "  if %ERRORLEVEL% NEQ 0 (",
   "    echo ERROR: Could not create destination folder: %dest_path%",
   "    goto :backup_error",
   "  )",
   ")",
   "xcopy \"" ++ s ++ "\\*\" \"%dest_path%\" /E /H /C /I /Y",
   "if %ERRORLEVEL% NEQ 0 (",
   "  echo ERROR: Backup operation failed",
   "  goto :backup_error",
   ") else (",
   "  echo Successfully backed up " ++ s ++ " to %dest_path%",
   ")",
   "goto :backup_end",
   ":backup_error",
   "echo Backup operation failed",
   ":backup_end"]

/-- The per-kind lines of `convert_to_bat`'s dispatch chain
(file_handler.py:167-345), one arm per `elif task_type == ...` branch (the
compared literals are pairwise distinct, so the ordered chain and this
match agree).  The `delay` arm raises (`.error`) exactly when
`int(details)` raises. -/
def taskKindLines (t : Task) : Except String (List String) :=
  match t.type with
  | "open_url" => .ok (urlLines t.details)
  | "open_app" => .ok ["start \"\" \"" ++ t.details ++ "\""]
  | "open_file" => .ok ["start \"\" \"" ++ t.details ++ "\""]
  | "close_app" => .ok
      ["taskkill /f /im \"" ++ t.details ++ "\" >nul 2>&1",
       "if %ERRORLEVEL% EQU 0 (echo Successfully closed \x7bdetails\x7d) else (echo Failed to close \x7bdetails\x7d)"]
  | "run_command" => .ok [t.details]
  | "delay" =>
      (match pyInt t.details with
       | some seconds => .ok
           ["echo Waiting for " ++ toString seconds ++ " seconds...",
            "timeout /t " ++ toString seconds ++ " /nobreak >nul"]
       | none => .error ("invalid literal for int() with base 10: " ++ t.details))
  | "shutdown" => .ok
      ["echo System will shutdown in " ++ t.details ++ " seconds...",
       "shutdown /s /t " ++ t.details]
  | "restart" => .ok
      ["echo System will restart in " ++ t.details ++ " seconds...",
       "shutdown /r /t " ++ t.details]
  | "sleep" => .ok
      ["echo Putting system to sleep...",
       "rundll32.exe powrprof.dll,SetSuspendState 0,1,0"]
  | "screenshot" => .ok
      ["echo Taking screenshot...",
       "if not exist \"" ++ winPath t.details ++ "\" mkdir \"" ++ winPath t.details ++ "\"",
       screenshotPsLine (winPath t.details),
       "if %ERRORLEVEL% NEQ 0 echo ERROR: Failed to take screenshot",
       ""]
  | "clean_temp" => .ok
      ["echo Cleaning temporary files...",
       "del /q /f /s \"%TEMP%\\*\" >nul 2>&1",
       "echo Temporary files cleaned."]
  | "security_scan" => .ok
      (let scan_type := pyLower t.details
       let ps_command :=
         if scan_type = "quick" then "Start-MpScan -ScanType QuickScan"
         else if scan_type = "full" then "Start-MpScan -ScanType FullScan"
         else "Start-MpScan -ScanType CustomScan"
       ["echo Running " ++ scan_type ++ " security scan...",
        "powershell -Command \"" ++ ps_command ++ "\""])
  | "delete_file" => .ok (deleteFileLines (winPath t.details))
  | "empty_folder" => .ok (emptyFolderLines (winPath t.details))
  | "delete_folder" => .ok (deleteFolderLines (winPath t.details))
  | "delete_folder_if_empty" => .ok (deleteIfEmptyLines (winPath t.details))
  | "backup_folder" => .ok (backupLines (winPath t.details) (winPath t.additional))
  | _ => .ok ["echo Unknown task type: " ++ t.type]

/-- The recognized `task_type` values of the dispatch chain; anything else
reaches the `Unknown task type` fallback. -/
def knownKinds : List String :=
  ["open_url", "open_app", "open_file", "close_app", "run_command", "delay",
   "shutdown", "restart", "sleep", "screenshot", "clean_temp",
   "security_scan", "delete_file", "empty_folder", "delete_folder",
   "delete_folder_if_empty", "backup_folder"]

/-- `REM Task {i}: {task_type}` announcement line (file_handler.py:164). -/
def remLine (n : Nat) (t : Task) : String :=
  "REM Task " ++ toString n ++ ": " ++ t.type

/-- `echo Executing Task {i}: {task_type}` line (file_handler.py:165). -/
def execLine (n : Nat) (t : Task) : String :=
  "echo Executing Task " ++ toString n ++ ": " ++ t.type

/-- All lines written for one task at 1-based position `n`, together with
the pending exception if the kind branch raised: the two announcement lines
are written before the dispatch, and `echo.` plus a blank line after it
(file_handler.py:159-347). -/
def taskBlockp (n : Nat) (t : Task) : List String × Option String :=
  match taskKindLines t with
  | .ok k => ([remLine n t, execLine n t] ++ k ++ ["echo.", ""], none)
  | .error e => ([remLine n t, execLine n t], some e)

/-- Lines written for the task list starting at position `n`, stopping at
the first raising task (whose partial block is kept). -/
def compileBlocksFrom (n : Nat) : List Task → List String × Option String
  | [] => ([], none)
  | t :: ts =>
      match taskBlockp n t with
      | (b, none) =>
          let rest := compileBlocksFrom (n + 1) ts
          (b ++ rest.1, rest.2)
      | (b, some e) => (b, some e)

/-- Batch header lines (file_handler.py:153-157); `echo.\n\n` contributes
the `echo.` line and a blank line. -/
def batHeader (txt_file_path : String) : List String :=
  ["@echo off",
   "echo AutoSpark Application - Task Execution",
   "echo Generated from: " ++ basenameWin txt_file_path,
   "echo Run time: %DATE% %TIME%",
   "echo.",
   ""]

/-- Closing lines (file_handler.py:350-351). -/
def batFooter : List String := ["echo All tasks completed.", "pause"]

/-- `FileHandler.convert_to_bat` (file_handler.py:133-356): the write event
(bat path and the lines actually written before any raise) together with
the Python result — the bat path on success, the wrapped exception message
otherwise. -/
def convert_to_bat (tasks : List Task) (txt_file_path : String) :
    (String × List String) × Except String String :=
  let bat_file_path := get_bat_path txt_file_path
  let body := compileBlocksFrom 1 tasks
  match body.2 with
  | none =>
      ((bat_file_path, batHeader txt_file_path ++ body.1 ++ batFooter),
       .ok bat_file_path)
  | some e =>
      ((bat_file_path, batHeader txt_file_path ++ body.1),
       .error ("Error creating BAT file: " ++ e))

/-- The compiled script as a result: the full line list on success, the
wrapped exception otherwise. -/
def batResult (tasks : List Task) (txt_file_path : String) :
    Except String (List String) :=
  match convert_to_bat tasks txt_file_path with
  | ((_, ls), .ok _) => .ok ls
  | (_, .error e) => .error e

/-- File content corresponding to a list of written lines. -/
def linesText (ls : List String) : String := concatTexts (ls.map (· ++ "\n"))

/-- The txt path `save_tasks` actually writes to (file_handler.py:32-33):
`.txt` is appended when the given path does not already end with it
case-insensitively. -/
def txtSavePath (file_path : String) : String :=
  if pyEndsWith (pyLower file_path) ".txt" then file_path
  else file_path ++ ".txt"

/-- `FileHandler.save_tasks` (file_handler.py:16-58): adjust the path, write
the text file, then unconditionally call `convert_to_bat` on the same tasks
and txt path.  The result is the ordered list of file-write events (path,
content) and the Python outcome: the txt path on success, the wrapped
exception when `convert_to_bat` raised (after the txt file was already
written). -/
def save_tasks (now : String) (tasks : List Task) (file_path : String) :
    List (String × String) × Except String String :=
  let path := txtSavePath file_path
  let text := serializeText now tasks
  match convert_to_bat tasks path with
  | ((batPath, batLs), .ok _) =>
      ([(path, text), (batPath, linesText batLs)], .ok path)
  | ((batPath, batLs), .error e) =>
      ([(path, text), (batPath, linesText batLs)],
       .error ("Error saving tasks to file: " ++ e))

/-! ### Positions inside the compiled script (for the backup and
delete-if-empty claims) -/

/-- Total length of the blocks of the first `i` tasks (numbering starts at
`n`); used to locate a task's block inside the compiled script. -/
def blockOffAux : Nat → List Task → Nat → Nat
  | _, _, 0 => 0
  | _, [], _ + 1 => 0
  | n, t :: ts, i + 1 => (taskBlockp n t).1.length + blockOffAux (n + 1) ts i

/-- Index of the first line of task `i`'s block inside the compiled script
(6 header lines come first). -/
def blockOffset (tasks : List Task) (i : Nat) : Nat :=
  6 + blockOffAux 1 tasks i

/-- Whether a script line is the label line `:lbl` — cmd.exe matches a
label when the first token after optional indentation is the colon-prefixed
name.  The generated scripts write their labels exactly as `:name` at
column 0. -/
def labelHit (lbl : String) (line : String) : Bool :=
  line.data.dropWhile (fun c => c == ' ' || c == '\t') == ':' :: lbl.data

/-- Index of the first line satisfying `q`. -/
def firstIdx (q : String → Bool) : List String → Option Nat
  | [] => none
  | s :: rest => if q s then some 0 else (firstIdx q rest).map (· + 1)

/-- cmd.exe `goto :lbl` target resolution: scan forward from the line after
the `goto`, wrapping to the top of the file when no label is found
below. -/
def gotoTarget (lines : List String) (p : Nat) (lbl : String) : Option Nat :=
  match firstIdx (labelHit lbl) (lines.drop (p + 1)) with
  | some k => some (p + 1 + k)
  | none => firstIdx (labelHit lbl) lines

/-- Whether the two-character sequence `x y` occurs in `l` (used to state
that the `delete_folder_if_empty` removal command carries no `/s`
recursive flag). -/
def hasPair (x y : Char) : List Char → Bool
  | a :: b :: rest => (a == x && b == y) || hasPair x y (b :: rest)
  | _ => false

/-- Whether the script result is the raising case. -/
def exceptErr {α : Type} : Except String α → Bool
  | .error _ => true
  | .ok _ => false

/-- Whether a string is newline-free (field values that serialize to a
single line). -/
def nlFree (s : String) : Bool := !(s.data.contains '\n')

/-- The serialized record line of one task, without its terminating
newline: `[type] | details`, extended with ` | additional` when
`additional` is non-empty. -/
def taskLineBody (t : Task) : String :=
  if t.additional = "" then "[" ++ t.type ++ "] | " ++ t.details
  else "[" ++ t.type ++ "] | " ++ t.details ++ " | " ++ t.additional

/-- Specification-side extraction rule for an accepted (stripped) parser
line, written with `takeWhile`/`dropWhile` in the words of the amended
claim: `type` is the trimmed text between `[` and the first `]`; the trimmed
remainder after `]` is split at its first `|` into a trimmed `details` and a
remainder, itself split once more at `|` for a trimmed `additional` (tail
discarded); when the remainder after `]` holds no `|` it becomes `details`
whole and `additional` is empty. -/
def c4ExtractSpec (s : List Char) : Task :=
  let kind : String := ⟨pyStripL ((s.drop 1).takeWhile (fun c => !(c == ']')))⟩
  let rest := pyStripL ((s.dropWhile (fun c => !(c == ']'))).drop 1)
  if rest.contains '|' then
    let primary : String := ⟨pyStripL (rest.takeWhile (fun c => !(c == '|')))⟩
    let rem := pyStripL ((rest.dropWhile (fun c => !(c == '|'))).drop 1)
    if rem.contains '|' then
      ⟨kind, primary, ⟨pyStripL (rem.takeWhile (fun c => !(c == '|')))⟩⟩
    else
      ⟨kind, primary, ⟨pyStripL rem⟩⟩
  else ⟨kind, ⟨rest⟩, ""⟩

/-! ### Object-level model of `TaskManager.get_tasks` (for the defensive
copy claim)

Python lists and dicts are mutable heap objects; `self._tasks.copy()`
allocates a fresh list object holding the same dict references.  The heap
holds list objects (lists of dict addresses) and dict objects (task
records); a `TaskManager` holds the address of its `_tasks` list. -/

structure PyHeap where
  lists : List (List Nat)
  dicts : List Task
deriving Repr, DecidableEq

structure TaskManagerRef where
  tasksRef : Nat
deriving Repr, DecidableEq

/-- Dereference a list object. -/
def heapListGet (h : PyHeap) (a : Nat) : List Nat := h.lists.getD a []

/-- The task sequence a `TaskManager` currently holds, as observed through
any of its operations (`get_tasks`, `has_tasks`, `delete_task`, ...): its
list object's elements, dereferenced. -/
def tmObserved (h : PyHeap) (tm : TaskManagerRef) : List Task :=
  (heapListGet h tm.tasksRef).map (fun a => h.dicts.getD a emptyTask)

/-- `TaskManager.get_tasks` (task_manager.py:28-30):
`return self._tasks.copy()` — allocate a fresh list object with the same
element references and return its address. -/
def get_tasks (h : PyHeap) (tm : TaskManagerRef) : PyHeap × Nat :=
  (⟨h.lists ++ [heapListGet h tm.tasksRef], h.dicts⟩, h.lists.length)

/-- A caller mutation of a list object (append, remove, reorder, element
replacement — any in-place rewrite of its contents). -/
def setListObj (h : PyHeap) (a : Nat) (v : List Nat) : PyHeap :=
  ⟨h.lists.set a v, h.dicts⟩

/-- A caller mutation of a task record (e.g. `task["details"] = ...`). -/
def setDictObj (h : PyHeap) (a : Nat) (t : Task) : PyHeap :=
  ⟨h.lists, h.dicts.set a t⟩

/-! ## Lemmas and claim theorems -/

section MoveLemmas

private lemma getD_eq_getElem (l : List Task) (i : Nat) (h : i < l.length) :
    l.getD i emptyTask = l[i] := by
  simp [List.getD_eq_getElem?_getD, List.getElem?_eq_getElem h]

private lemma set_swap_restore (l : List Task) (i : Nat) (h1 : 0 < i)
    (h2 : i < l.length) :
    let l2 := (l.set i (l.getD (i - 1) emptyTask)).set (i - 1) (l.getD i emptyTask)
    (l2.set (i - 1) (l2.getD i emptyTask)).set i (l2.getD (i - 1) emptyTask) = l := by
  intro l2
  have hne : i - 1 ≠ i := by omega
  have hi1 : i - 1 < l.length := by omega
  have hlen2 : l2.length = l.length := by simp [l2]
  -- the two reads from `l2` recover the original elements
  have hread1 : l2.getD i emptyTask = l.getD (i - 1) emptyTask := by
    rw [getD_eq_getElem _ _ (by omega : i < l2.length),
        getD_eq_getElem _ _ hi1]
    simp [l2, List.getElem_set, hne, h2, List.getElem?_eq_getElem, hi1]
  have hread2 : l2.getD (i - 1) emptyTask = l.getD i emptyTask := by
    rw [getD_eq_getElem _ _ (by omega : i - 1 < l2.length),
        getD_eq_getElem _ _ (by omega : i < l.length)]
    simp [l2, List.getElem_set, hne, List.getElem?_eq_getElem, h2]
  rw [hread1, hread2]
  apply List.ext_getElem
  · simp [l2]
  · intro j hj1 hj2
    by_cases hji : j = i
    · subst hji
      simp [l2, List.getElem_set, hne, getD_eq_getElem _ _ h2,
        List.getElem?_eq_getElem, h2]
    · by_cases hji1 : j = i - 1
      · subst hji1
        simp [l2, List.getElem_set, hne, Ne.symm hji, getD_eq_getElem _ _ hi1,
          List.getElem?_eq_getElem, hi1]
      · simp [l2, List.getElem_set, hji, hji1, Ne.symm hji, Ne.symm hji1]

end MoveLemmas

/-- Claim C8: for every task sequence and every index `i` with
`0 < i < length`, moving the task at `i` up succeeds, and then moving the
task now at `i-1` down succeeds and restores the original sequence; the
boundary moves — up at index 0 and down at the last index — return failure
and leave the sequence unchanged. -/
theorem c8_move_roundtrip (tasks : List Task) (i : Nat) (h1 : 0 < i)
    (h2 : i < tasks.length) :
    (move_task_up tasks i).1 = true ∧
    move_task_down (move_task_up tasks i).2 (i - 1) = (true, tasks) ∧
    move_task_up tasks 0 = (false, tasks) ∧
    move_task_down tasks (tasks.length - 1) = (false, tasks) := by
  have hcond : 0 < i ∧ i < tasks.length := ⟨h1, h2⟩
  refine ⟨by simp [move_task_up, hcond], ?_, by simp [move_task_up], ?_⟩
  · have hup : (move_task_up tasks i).2 =
        (tasks.set i (tasks.getD (i - 1) emptyTask)).set (i - 1)
          (tasks.getD i emptyTask) := by
      simp [move_task_up, hcond]
    have hlen : ((tasks.set i (tasks.getD (i - 1) emptyTask)).set (i - 1)
        (tasks.getD i emptyTask)).length = tasks.length := by simp
    have hguard : i - 1 < ((tasks.set i (tasks.getD (i - 1) emptyTask)).set (i - 1)
        (tasks.getD i emptyTask)).length - 1 := by omega
    have hid : i - 1 + 1 = i := by omega
    rw [hup]
    simp only [move_task_down, if_pos hguard, hid]
    rw [Prod.mk.injEq]
    exact ⟨rfl, set_swap_restore tasks i h1 h2⟩
  · have : ¬ (tasks.length - 1 < tasks.length - 1) := by omega
    simp [move_task_down, this]

/-- Witness for C8 at the concrete sequence `[delay 3, open_url]` and
`i = 1`. -/
theorem c8_move_roundtrip_witness :
    (move_task_up [Task.mk "delay" "3" "", Task.mk "open_url" "example.com" ""] 1).1 = true ∧
    move_task_down
      (move_task_up [Task.mk "delay" "3" "", Task.mk "open_url" "example.com" ""] 1).2 0 =
      (true, [Task.mk "delay" "3" "", Task.mk "open_url" "example.com" ""]) ∧
    move_task_up [Task.mk "delay" "3" "", Task.mk "open_url" "example.com" ""] 0 =
      (false, [Task.mk "delay" "3" "", Task.mk "open_url" "example.com" ""]) ∧
    move_task_down [Task.mk "delay" "3" "", Task.mk "open_url" "example.com" ""] 1 =
      (false, [Task.mk "delay" "3" "", Task.mk "open_url" "example.com" ""]) :=
  c8_move_roundtrip [Task.mk "delay" "3" "", Task.mk "open_url" "example.com" ""] 1
    (by decide) (by decide)

/-- Claim C1 (code bug): the round-trip fails on the code even for field
values free of `[`, `]`, `|`.  `save_tasks` writes the record line
`[open_url] | example.com`, and `parse_text_to_tasks` takes `details` to be
the (empty) text between `]` and the first `|`, shifting the real details
into `additional`: deserializing a serialized singleton yields a different
task. -/
theorem c1_roundtrip_failure :
    parse_text_to_tasks
        (serializeText "2024-01-01 00:00:00" [Task.mk "open_url" "example.com" ""]) =
      [Task.mk "open_url" "" "example.com"] ∧
    [Task.mk "open_url" "" "example.com"] ≠ [Task.mk "open_url" "example.com" ""] := by
  exact ⟨by decide, by decide⟩

/-- Claim C9 counterexample: `get_tasks` returns a shallow copy, so the
task records of the returned list are the store's own records.  In a heap
with one task at dict address 0, the copy returned by `get_tasks` holds
address 0 as its first element, and a caller's in-place mutation of that
record changes the sequence the store observes — contradicting the claim
that mutation of the returned records leaves the store unchanged. -/
theorem c9_shallow_copy_counterexample :
    (heapListGet (get_tasks ⟨[[0]], [Task.mk "open_url" "example.com" ""]⟩ ⟨0⟩).1
        (get_tasks ⟨[[0]], [Task.mk "open_url" "example.com" ""]⟩ ⟨0⟩).2).getD 0 0 = 0 ∧
    tmObserved
        (setDictObj (get_tasks ⟨[[0]], [Task.mk "open_url" "example.com" ""]⟩ ⟨0⟩).1 0
          (Task.mk "delay" "5" ""))
        ⟨0⟩ ≠
      tmObserved (⟨[[0]], [Task.mk "open_url" "example.com" ""]⟩ : PyHeap) ⟨0⟩ := by
  exact ⟨by decide, by decide⟩

/-- Claim C9 (amended): `get_tasks` returns a fresh list object, so any
caller mutation of the returned sequence itself leaves the store's sequence
unchanged; the fresh list holds the same element references, and mutating a
returned task record in place is visible to the store (shallow copy). -/
theorem c9_defensive_copy_amended (h : PyHeap) (tm : TaskManagerRef)
    (v : List Nat) (hwf : tm.tasksRef < h.lists.length) :
    (get_tasks h tm).2 ≠ tm.tasksRef ∧
    heapListGet (get_tasks h tm).1 (get_tasks h tm).2 = heapListGet h tm.tasksRef ∧
    tmObserved (setListObj (get_tasks h tm).1 (get_tasks h tm).2 v) tm =
      tmObserved h tm := by
  refine ⟨by simp [get_tasks]; omega, ?_, ?_⟩
  · simp [get_tasks, heapListGet, List.getD_eq_getElem?_getD,
      List.getElem?_append_right]
  · have hne : tm.tasksRef ≠ h.lists.length := by omega
    simp [get_tasks, setListObj, tmObserved, heapListGet,
      List.getD_eq_getElem?_getD, List.getElem?_set_ne (Ne.symm hne),
      List.getElem?_append_left hwf]

/-- Witness for C9's amended theorem on a concrete one-task heap. -/
theorem c9_defensive_copy_amended_witness :
    (get_tasks ⟨[[0]], [Task.mk "open_url" "example.com" ""]⟩ ⟨0⟩).2 ≠ 0 ∧
    heapListGet (get_tasks ⟨[[0]], [Task.mk "open_url" "example.com" ""]⟩ ⟨0⟩).1
        (get_tasks ⟨[[0]], [Task.mk "open_url" "example.com" ""]⟩ ⟨0⟩).2 =
      heapListGet (⟨[[0]], [Task.mk "open_url" "example.com" ""]⟩ : PyHeap) 0 ∧
    tmObserved
        (setListObj (get_tasks ⟨[[0]], [Task.mk "open_url" "example.com" ""]⟩ ⟨0⟩).1
          (get_tasks ⟨[[0]], [Task.mk "open_url" "example.com" ""]⟩ ⟨0⟩).2 []) ⟨0⟩ =
      tmObserved (⟨[[0]], [Task.mk "open_url" "example.com" ""]⟩ : PyHeap) ⟨0⟩ :=
  c9_defensive_copy_amended ⟨[[0]], [Task.mk "open_url" "example.com" ""]⟩ ⟨0⟩ []
    (by decide)

/-- Claim C3 counterexample: serializing one `open_url` task does produce
the three comment lines, a blank line, one task line and a trailing empty
piece — but the task line is `[open_url] | example.com`, with a ` | `
delimiter between the bracketed kind and the primary value, not the claimed
`[open_url] example.com`. -/
theorem c3_line_shape_counterexample :
    (splitLinesL (serializeText "2024-01-01 00:00:00"
        [Task.mk "open_url" "example.com" ""]).data).map (fun l => (⟨l⟩ : String)) =
      ["# AutoSpark Application - Task List",
       "# Generated on: 2024-01-01 00:00:00",
       "# Format: [Task Type] | [Details] | [Additional Info (optional)]",
       "",
       "[open_url] | example.com",
       ""] ∧
    "[open_url] | example.com" ≠ "[open_url] example.com" := by
  exact ⟨by decide, by decide⟩

section ParserLemmas

private lemma foldl_append_filterMap (f : List Char → Option Task) :
    ∀ (ls : List (List Char)) (acc : List Task),
      ls.foldl (fun r a => match f a with | some b => r ++ [b] | none => r) acc =
        acc ++ ls.filterMap f := by
  intro ls
  induction ls with
  | nil => intro acc; simp
  | cons a t ih =>
      intro acc
      cases hfa : f a with
      | none => simp [List.foldl_cons, hfa, ih, List.filterMap_cons]
      | some b => simp [List.foldl_cons, hfa, ih, List.filterMap_cons]

private lemma splitOnceAux_spec (sep : Char) :
    ∀ (l acc : List Char),
      splitOnceAux sep l acc =
        if l.contains sep then
          [acc.reverse ++ l.takeWhile (fun c => !(c == sep)),
           (l.dropWhile (fun c => !(c == sep))).drop 1]
        else [acc.reverse ++ l] := by
  intro l
  induction l with
  | nil => intro acc; simp [splitOnceAux]
  | cons c rest ih =>
      intro acc
      by_cases hcs : c = sep
      · subst hcs
        simp [splitOnceAux, List.contains_cons, List.takeWhile_cons,
          List.dropWhile_cons]
      · have h1 : (c == sep) = false := beq_eq_false_iff_ne.mpr hcs
        have h2 : (sep == c) = false := beq_eq_false_iff_ne.mpr (Ne.symm hcs)
        simp only [splitOnceAux, h1, Bool.false_eq_true, if_false,
          ih (c :: acc), List.contains_cons, h2, Bool.false_or,
          List.takeWhile_cons, List.dropWhile_cons, Bool.not_false, if_true,
          List.reverse_cons]
        split <;> simp

private lemma splitOnce_spec (sep : Char) (l : List Char) :
    splitOnce sep l =
      if l.contains sep then
        [l.takeWhile (fun c => !(c == sep)),
         (l.dropWhile (fun c => !(c == sep))).drop 1]
      else [l] := by
  have h := splitOnceAux_spec sep l []
  simpa [splitOnce] using h

private lemma take_findIdx (p : Char → Bool) :
    ∀ l : List Char, l.take (l.findIdx p) = l.takeWhile (fun x => !(p x)) := by
  intro l
  induction l with
  | nil => rfl
  | cons a t ih =>
      cases hpa : p a with
      | true => simp [List.findIdx_cons, hpa, List.takeWhile_cons]
      | false => simp [List.findIdx_cons, hpa, List.takeWhile_cons, ih]

private lemma drop_findIdx (p : Char → Bool) :
    ∀ l : List Char,
      l.drop (l.findIdx p + 1) = (l.dropWhile (fun x => !(p x))).drop 1 := by
  intro l
  induction l with
  | nil => rfl
  | cons a t ih =>
      cases hpa : p a with
      | true => simp [List.findIdx_cons, hpa, List.dropWhile_cons]
      | false => simp [List.findIdx_cons, hpa, List.dropWhile_cons, ih]

private lemma dropWhile_head_false (p : Char → Bool) :
    ∀ (l : List Char) (x : Char), (l.dropWhile p).head? = some x → p x = false := by
  intro l
  induction l with
  | nil => intro x h; simp [List.dropWhile] at h
  | cons a t ih =>
      intro x h
      by_cases hpa : p a
      · exact ih x (by simpa [List.dropWhile_cons, hpa] using h)
      · have : x = a := by
          simp [List.dropWhile_cons, hpa] at h
          exact h.symm
        subst this
        simpa using hpa

private lemma dropWhile_of_head_false (p : Char → Bool) (l : List Char)
    (h : ∀ x, l.head? = some x → p x = false) : l.dropWhile p = l := by
  cases l with
  | nil => rfl
  | cons a t => simp [List.dropWhile_cons, h a rfl]

private lemma dropWhile_idem (p : Char → Bool) (l : List Char) :
    (l.dropWhile p).dropWhile p = l.dropWhile p :=
  dropWhile_of_head_false p _ (dropWhile_head_false p l)

private lemma pyStripL_idem (l : List Char) : pyStripL (pyStripL l) = pyStripL l := by
  unfold pyStripL
  set m1 := l.dropWhile pyWs with hm1
  set m2 := (m1.reverse.dropWhile pyWs).reverse with hm2
  have hstep1 : m2.dropWhile pyWs = m2 := by
    apply dropWhile_of_head_false
    intro x hx
    -- `m2` is a prefix of `m1`, whose head fails `pyWs`
    have hsuf : m1.reverse.dropWhile pyWs <:+ m1.reverse := List.dropWhile_suffix pyWs
    have hpre : m2 <+: m1 := by
      have h := List.reverse_prefix.mpr hsuf
      simpa [hm2] using h
    cases hm : m2 with
    | nil => simp [hm] at hx
    | cons y t =>
        have hy : x = y := by simp [hm] at hx; exact hx.symm
        subst hy
        obtain ⟨r, hr⟩ := hpre
        have hm1head : m1.head? = some x := by
          rw [← hr, hm]
          simp
        exact dropWhile_head_false pyWs l x (by rw [← hm1]; exact hm1head)
  rw [hstep1, hm2, List.reverse_reverse, dropWhile_idem]

end ParserLemmas

section ParseLineCases

private lemma parseLine_empty (l : List Char) (h : pyStripL l = []) :
    parseLine l = none := by
  unfold parseLine
  rw [h]
  simp

private lemma parseLine_comment (l : List Char)
    (h : (pyStripL l).headD ' ' = '#') : parseLine l = none := by
  unfold parseLine
  cases hc : pyStripL l with
  | nil => simp
  | cons c t =>
      rw [hc] at h
      simp at h
      subst h
      simp

private lemma parseLine_reject (l : List Char)
    (h : ¬((pyStripL l).headD ' ' = '[' ∧ (pyStripL l).contains ']' = true ∧
      (pyStripL l).contains '|' = true)) : parseLine l = none := by
  unfold parseLine
  cases hc : pyStripL l with
  | nil => simp
  | cons c t =>
      rw [hc] at h
      have hne : ¬(c :: t = ([] : List Char)) := by simp
      rw [if_neg hne]
      by_cases hcq : c = '#'
      · subst hcq
        rw [if_pos (by simp : (((('#' :: t) : List Char).headD ' ' == '#') = true))]
      · have hg : ((((c :: t) : List Char).headD ' ' == '[') &&
            ((c :: t) : List Char).contains ']' &&
            ((c :: t) : List Char).contains '|') = false := by
          apply Bool.eq_false_iff.mpr
          intro htr
          simp only [Bool.and_eq_true, beq_iff_eq, List.headD_cons] at htr
          exact h ⟨htr.1.1, htr.1.2, htr.2⟩
        rw [if_neg (by simp [beq_eq_false_iff_ne.mpr hcq] :
          ¬((((c :: t) : List Char).headD ' ' == '#') = true))]
        rw [if_neg (by rw [hg]; exact Bool.false_ne_true)]

private lemma parseLine_accept (l rest : List Char)
    (hstrip : pyStripL l = '[' :: rest)
    (hbr : (('[' :: rest) : List Char).contains ']' = true)
    (hpipe : (('[' :: rest) : List Char).contains '|' = true) :
    parseLine l = some (c4ExtractSpec ('[' :: rest)) := by
  unfold parseLine c4ExtractSpec
  rw [hstrip]
  rw [if_neg (by simp : ¬('[' :: rest = ([] : List Char)))]
  rw [if_neg (by simp : ¬(((('[' :: rest) : List Char).headD ' ' == '#') = true))]
  rw [if_pos (by rw [hbr, hpipe]; rfl :
    (((('[' :: rest) : List Char).headD ' ' == '[') &&
      (('[' :: rest) : List Char).contains ']' &&
      (('[' :: rest) : List Char).contains '|') = true)]
  have htEnd : pyFind ']' ('[' :: rest) = rest.findIdx (fun x => x == ']') + 1 := by
    simp [pyFind, List.findIdx_cons]
  rw [htEnd]
  have hdw : (('[' :: rest) : List Char).dropWhile (fun c => !(c == ']')) =
      rest.dropWhile (fun c => !(c == ']')) := by
    simp [List.dropWhile_cons]
  have hd1 : ∀ (a : Char) (xs : List Char), ((a :: xs) : List Char).drop 1 = xs :=
    fun a xs => rfl
  simp only [List.take_succ_cons, List.drop_succ_cons, hd1, hdw]
  rw [take_findIdx, drop_findIdx]
  set rest0 := pyStripL ((rest.dropWhile (fun x => !(x == ']'))).drop 1) with hrest0
  have hidem : pyStripL rest0 = rest0 := by rw [hrest0, pyStripL_idem]
  cases hr : rest0.contains '|' with
  | false =>
      rw [splitOnce_spec]
      simp only [hr, Bool.false_eq_true, if_false, List.map_cons, List.map_nil]
      rw [hidem]
  | true =>
      rw [splitOnce_spec]
      simp only [hr, if_true, List.map_cons, List.map_nil]
      set a1 := pyStripL ((rest0.dropWhile (fun x => !(x == '|'))).drop 1) with ha1
      cases hr2 : a1.contains '|' with
      | false =>
          simp only [hr2, Bool.false_eq_true, if_false]
      | true =>
          rw [splitOnce_spec]
          simp only [hr2, if_true, List.headD_cons]

end ParseLineCases

/-- Claim C4 counterexample: the parser does not require a `|` after the
first `]` — it accepts any stripped line starting with `[` that contains
`]` anywhere and `|` anywhere.  The line `[a|b] c` has its only `|` before
the `]`, so under the claim it must be silently skipped, yet the code
parses it into a task (with the whole remainder as `details`). -/
theorem c4_accept_counterexample :
    parse_text_to_tasks "[a|b] c" = [Task.mk "a|b" "c" ""] ∧
    parse_text_to_tasks "[a|b] c" ≠ [] := by
  exact ⟨by decide, by decide⟩

/-- Claim C4 (amended): deserialization processes every line of the
stripped input independently; it skips blank lines and lines whose first
non-whitespace character is `#`; it accepts exactly the stripped lines that
start with `[` and contain `]` somewhere and `|` somewhere (not necessarily
after the `]`), silently skipping all others; and on an accepted line it
extracts `kind` as the trimmed text between `[` and the first `]`, then
splits the trimmed remainder after `]` at its first `|` into a trimmed
`primary` and a remainder, which is split once more at `|` for a trimmed
`secondary` with the tail discarded (when the remainder after `]` holds no
`|`, it becomes `primary` whole and `secondary` is empty). -/
theorem c4_parse_characterization :
    (∀ content : String,
      parse_text_to_tasks content =
        (splitLinesL (pyStripL content.data)).filterMap parseLine) ∧
    (∀ l : List Char, pyStripL l = [] → parseLine l = none) ∧
    (∀ l : List Char, (pyStripL l).headD ' ' = '#' → parseLine l = none) ∧
    (∀ l : List Char,
      ¬((pyStripL l).headD ' ' = '[' ∧ (pyStripL l).contains ']' = true ∧
        (pyStripL l).contains '|' = true) → parseLine l = none) ∧
    (∀ l : List Char, (pyStripL l).headD ' ' = '[' →
      (pyStripL l).contains ']' = true → (pyStripL l).contains '|' = true →
      parseLine l = some (c4ExtractSpec (pyStripL l))) := by
  refine ⟨?_, parseLine_empty, parseLine_comment, parseLine_reject, ?_⟩
  · intro content
    unfold parse_text_to_tasks
    rw [foldl_append_filterMap]
    simp
  · intro l hhead hbr hpipe
    cases hc : pyStripL l with
    | nil => rw [hc] at hhead; simp at hhead
    | cons c t =>
        rw [hc] at hhead hbr hpipe
        simp only [List.headD_cons] at hhead
        subst hhead
        exact parseLine_accept l t hc hbr hpipe

/-- Witness for C4's amended characterization on concrete lines: a
round-trip through the filterMap form, a blank line, a comment line, a
shapeless line, and a full `[kind] | a | b | tail` line. -/
theorem c4_parse_characterization_witness :
    parse_text_to_tasks "# x\n[delay] | 5 | a | b\njunk" =
      (splitLinesL (pyStripL "# x\n[delay] | 5 | a | b\njunk".data)).filterMap parseLine ∧
    parseLine "   ".data = none ∧
    parseLine "  # note".data = none ∧
    parseLine "no brackets here".data = none ∧
    parseLine "[delay] | 5 | a | b".data =
      some (c4ExtractSpec (pyStripL "[delay] | 5 | a | b".data)) :=
  ⟨c4_parse_characterization.1 _,
   c4_parse_characterization.2.1 _ (by decide),
   c4_parse_characterization.2.2.1 _ (by decide),
   c4_parse_characterization.2.2.2.1 _ (by decide),
   c4_parse_characterization.2.2.2.2 _ (by decide) (by decide) (by decide)⟩

section SerializeLemmas

private lemma no_nl_append {a b : List Char}
    (ha : ∀ c ∈ a, ¬ c = '\n') (hb : ∀ c ∈ b, ¬ c = '\n') :
    ∀ c ∈ a ++ b, ¬ c = '\n' := by
  intro c hc
  rcases List.mem_append.mp hc with h | h
  exacts [ha c h, hb c h]

private lemma nlFree_no_nl {s : String} (h : nlFree s = true) :
    ∀ c ∈ s.data, ¬ c = '\n' := by
  intro c hc hcc
  subst hcc
  have : '\n' ∈ s.data := hc
  simp [nlFree, List.elem_iff, List.contains] at h
  exact h this

private lemma splitLinesAux_append_no_nl :
    ∀ (a b acc : List Char), (∀ c ∈ a, ¬ c = '\n') →
      splitLinesAux (a ++ b) acc = splitLinesAux b (a.reverse ++ acc) := by
  intro a
  induction a with
  | nil => intro b acc _; simp
  | cons c t ih =>
      intro b acc h
      have hc : (c == '\n') = false :=
        beq_eq_false_iff_ne.mpr (h c (by simp))
      simp only [List.cons_append, splitLinesAux, hc, Bool.false_eq_true,
        if_false, List.append_eq]
      rw [ih b (c :: acc) (fun x hx => h x (by simp [hx]))]
      simp

private lemma splitLinesAux_nl (b acc : List Char) :
    splitLinesAux ('\n' :: b) acc = acc.reverse :: splitLinesAux b [] := by
  simp [splitLinesAux]

private lemma taskLine_eq_body (t : Task) :
    taskLine t = taskLineBody t ++ "\n" := by
  by_cases h : t.additional = "" <;>
    simp [taskLine, taskLineBody, h, String.append_assoc]

private lemma taskLineBody_no_nl (t : Task) (h1 : nlFree t.type = true)
    (h2 : nlFree t.details = true) (h3 : nlFree t.additional = true) :
    ∀ c ∈ (taskLineBody t).data, ¬ c = '\n' := by
  have lb : ∀ c ∈ ("[" : String).data, ¬ c = '\n' := by decide
  have mid : ∀ c ∈ ("] | " : String).data, ¬ c = '\n' := by decide
  have sep2 : ∀ c ∈ (" | " : String).data, ¬ c = '\n' := by decide
  by_cases h : t.additional = "" <;>
    · simp only [taskLineBody, h, if_true, if_false, String.data_append]
      first
      | exact no_nl_append (no_nl_append (no_nl_append lb (nlFree_no_nl h1)) mid)
          (nlFree_no_nl h2)
      | exact no_nl_append (no_nl_append (no_nl_append (no_nl_append
          (no_nl_append lb (nlFree_no_nl h1)) mid) (nlFree_no_nl h2)) sep2)
          (nlFree_no_nl h3)

private lemma splitLines_taskBodies :
    ∀ (ts : List Task),
      (∀ t ∈ ts, nlFree t.type = true ∧ nlFree t.details = true ∧
        nlFree t.additional = true) →
      splitLinesL (concatTexts (ts.map taskLine)).data =
        ts.map (fun t => (taskLineBody t).data) ++ [[]] := by
  intro ts
  induction ts with
  | nil => intro _; rfl
  | cons t rest ih =>
      intro h
      obtain ⟨h1, h2, h3⟩ := h t (by simp)
      have hbody := taskLineBody_no_nl t h1 h2 h3
      have hdata : (concatTexts ((t :: rest).map taskLine)).data =
          (taskLineBody t).data ++ '\n' :: (concatTexts (rest.map taskLine)).data := by
        simp [concatTexts, taskLine_eq_body, String.data_append]
      unfold splitLinesL
      rw [hdata, splitLinesAux_append_no_nl _ _ _ hbody, splitLinesAux_nl]
      simp only [List.append_nil, List.reverse_reverse, List.map_cons,
        List.cons_append]
      rw [← splitLinesL]
      rw [ih (fun x hx => h x (by simp [hx]))]

end SerializeLemmas

/-- Claim C3 (amended): for every timestamp and task sequence whose field
values are newline-free, serialize emits the three-line comment header, a
blank line, then exactly one line per task in sequence order — of the form
`[kind] | primary` when secondary is empty (no trailing delimiter after
primary) and `[kind] | primary | secondary` when secondary is non-empty —
followed by the final newline's empty piece.  (A ` | ` delimiter always
separates the bracketed kind from primary, unlike the claimed
`[kind] primary`.) -/
theorem c3_serialize_lines_amended (now : String) (tasks : List Task)
    (hnow : nlFree now = true)
    (ht : ∀ t ∈ tasks, nlFree t.type = true ∧ nlFree t.details = true ∧
      nlFree t.additional = true) :
    splitLinesL (serializeText now tasks).data =
      ["# AutoSpark Application - Task List".data,
       ("# Generated on: " ++ now).data,
       "# Format: [Task Type] | [Details] | [Additional Info (optional)]".data,
       []] ++
      tasks.map (fun t => (taskLineBody t).data) ++ [[]] := by
  have hH1 : ∀ c ∈ ("# AutoSpark Application - Task List" : String).data,
      ¬ c = '\n' := by decide
  have hH2 : ∀ c ∈ ("# Generated on: " : String).data, ¬ c = '\n' := by decide
  have hH3 : ∀ c ∈
      ("# Format: [Task Type] | [Details] | [Additional Info (optional)]" :
        String).data, ¬ c = '\n' := by decide
  have hdata : (serializeText now tasks).data =
      "# AutoSpark Application - Task List".data ++ '\n' ::
      (("# Generated on: ".data ++ now.data) ++ '\n' ::
      ("# Format: [Task Type] | [Details] | [Additional Info (optional)]".data ++
        '\n' :: '\n' :: (concatTexts (tasks.map taskLine)).data)) := by
    simp [serializeText, String.data_append]
  unfold splitLinesL
  rw [hdata, splitLinesAux_append_no_nl _ _ _ hH1, splitLinesAux_nl,
    splitLinesAux_append_no_nl _ _ _ (no_nl_append hH2 (nlFree_no_nl hnow)),
    splitLinesAux_nl, splitLinesAux_append_no_nl _ _ _ hH3, splitLinesAux_nl,
    splitLinesAux_nl]
  rw [← splitLinesL, splitLines_taskBodies tasks ht]
  simp [String.data_append]

/-- Witness for C3's amended theorem on a concrete two-task sequence (one
with and one without a secondary value). -/
theorem c3_serialize_lines_amended_witness :
    splitLinesL (serializeText "2024-01-01 00:00:00"
        [Task.mk "open_url" "example.com" "",
         Task.mk "backup_folder" "C:/a" "D:/b"]).data =
      ["# AutoSpark Application - Task List".data,
       ("# Generated on: " ++ "2024-01-01 00:00:00").data,
       "# Format: [Task Type] | [Details] | [Additional Info (optional)]".data,
       []] ++
      [Task.mk "open_url" "example.com" "",
       Task.mk "backup_folder" "C:/a" "D:/b"].map
        (fun t => (taskLineBody t).data) ++ [[]] :=
  c3_serialize_lines_amended "2024-01-01 00:00:00"
    [Task.mk "open_url" "example.com" "", Task.mk "backup_folder" "C:/a" "D:/b"]
    (by decide) (by decide)

section CompilerLemmas

private lemma taskKindLines_err_bool (t : Task) :
    exceptErr (taskKindLines t) =
      (t.type == "delay" && (pyInt t.details).isNone) := by
  obtain ⟨ty, d, a⟩ := t
  unfold taskKindLines
  dsimp only
  split
  all_goals first
    | (rename_i hc1 hc2 hc3 hc4 hc5 hc6 hc7 hc8 hc9 hc10 hc11 hc12 hc13 hc14
        hc15 hc16 hc17
       simp [exceptErr, beq_eq_false_iff_ne.mpr hc6])
    | (cases hp : pyInt d <;> simp [exceptErr, hp])

private lemma taskKindLines_err_iff (t : Task) :
    exceptErr (taskKindLines t) = true ↔
      (t.type = "delay" ∧ pyInt t.details = none) := by
  rw [taskKindLines_err_bool]
  simp [Option.isNone_iff_eq_none]

private lemma taskKindLines_ok_of_benign (t : Task)
    (h : ¬(t.type = "delay" ∧ pyInt t.details = none)) :
    ∃ k, taskKindLines t = .ok k := by
  cases hk : taskKindLines t with
  | ok k => exact ⟨k, rfl⟩
  | error e =>
      exfalso
      exact h ((taskKindLines_err_iff t).mp (by rw [hk]; rfl))

private lemma taskKindLines_unknown (t : Task) (h : ¬ t.type ∈ knownKinds) :
    taskKindLines t = .ok ["echo Unknown task type: " ++ t.type] := by
  obtain ⟨ty, d, a⟩ := t
  simp only [knownKinds, List.mem_cons, List.not_mem_nil, or_false] at h
  unfold taskKindLines
  dsimp only
  split
  all_goals first
    | rfl
    | (exfalso; apply h; simp_all)

private lemma taskBlockp_err_iff (n : Nat) (t : Task) :
    (taskBlockp n t).2.isSome = true ↔
      (t.type = "delay" ∧ pyInt t.details = none) := by
  rw [← taskKindLines_err_iff]
  unfold taskBlockp
  cases hk : taskKindLines t <;> simp [exceptErr]

private lemma compileBlocksFrom_err :
    ∀ (ts : List Task) (n : Nat),
      (compileBlocksFrom n ts).2.isSome = true ↔
        ∃ t ∈ ts, t.type = "delay" ∧ pyInt t.details = none := by
  intro ts
  induction ts with
  | nil => intro n; simp [compileBlocksFrom]
  | cons t rest ih =>
      intro n
      rcases htb : taskBlockp n t with ⟨b, e⟩
      cases e with
      | none =>
          have hbenign : ¬(t.type = "delay" ∧ pyInt t.details = none) := by
            rw [← taskBlockp_err_iff n t, htb]
            simp
          simp only [compileBlocksFrom, htb]
          simp [ih (n + 1), hbenign]
      | some msg =>
          have hbad : t.type = "delay" ∧ pyInt t.details = none := by
            rw [← taskBlockp_err_iff n t, htb]
            rfl
          simp only [compileBlocksFrom, htb]
          simp [hbad]

private lemma compileBlocksFrom_locate :
    ∀ (ts : List Task) (n i : Nat),
      (compileBlocksFrom n ts).2 = none → i < ts.length →
      ∃ pre post, (compileBlocksFrom n ts).1 =
          pre ++ (taskBlockp (n + i) (ts.getD i emptyTask)).1 ++ post ∧
        pre.length = blockOffAux n ts i := by
  intro ts
  induction ts with
  | nil => intro n i _ hi; exact absurd hi (by simp)
  | cons t rest ih =>
      intro n i hok hi
      rcases htb : taskBlockp n t with ⟨b, e⟩
      cases e with
      | some msg =>
          exfalso
          simp only [compileBlocksFrom, htb] at hok
          exact Option.some_ne_none msg hok
      | none =>
          simp only [compileBlocksFrom, htb] at hok ⊢
          cases i with
          | zero =>
              refine ⟨[], (compileBlocksFrom (n + 1) rest).1, ?_, ?_⟩
              · simp [List.getD_cons_zero, htb]
              · simp [blockOffAux]
          | succ i =>
              obtain ⟨pre, post, heq, hlen⟩ :=
                ih (n + 1) i hok (by simpa using hi)
              refine ⟨b ++ pre, post, ?_, ?_⟩
              · rw [heq]
                simp only [List.getD_cons_succ, List.append_assoc]
                have : n + 1 + i = n + (i + 1) := by omega
                rw [this]
              · simp only [List.length_append, hlen, blockOffAux, htb]

private lemma batResult_err (tasks : List Task) (path : String) :
    exceptErr (batResult tasks path) = (compileBlocksFrom 1 tasks).2.isSome := by
  unfold batResult convert_to_bat
  cases h : (compileBlocksFrom 1 tasks).2 <;> simp [h, exceptErr]

private lemma batResult_ok_iff (tasks : List Task) (path : String)
    (script : List String) :
    batResult tasks path = .ok script ↔
      ((compileBlocksFrom 1 tasks).2 = none ∧
        script = batHeader path ++ (compileBlocksFrom 1 tasks).1 ++ batFooter) := by
  unfold batResult convert_to_bat
  cases h : (compileBlocksFrom 1 tasks).2 <;> simp [h, eq_comm]

private lemma remLine_mem_block (n : Nat) (t : Task) :
    remLine n t ∈ (taskBlockp n t).1 := by
  unfold taskBlockp
  cases hk : taskKindLines t <;> simp

end CompilerLemmas

/-- Claim C2: compilation raises exactly when some task has kind `delay`
with a non-numeric `details` value; on success the script is non-empty and
contains, for every task, that task's announcement line — and for every
unrecognized kind the visible `Unknown task type` stub line. -/
theorem c2_compiler_totality (tasks : List Task) (path : String) :
    (exceptErr (batResult tasks path) = true ↔
      ∃ t ∈ tasks, t.type = "delay" ∧ pyInt t.details = none) ∧
    (∀ script, batResult tasks path = .ok script →
      script ≠ [] ∧
      ∀ i, i < tasks.length →
        remLine (i + 1) (tasks.getD i emptyTask) ∈ script ∧
        (¬ (tasks.getD i emptyTask).type ∈ knownKinds →
          ("echo Unknown task type: " ++ (tasks.getD i emptyTask).type) ∈ script)) := by
  constructor
  · rw [batResult_err]
    exact compileBlocksFrom_err tasks 1
  · intro script hok
    obtain ⟨hnone, hscript⟩ := (batResult_ok_iff tasks path script).mp hok
    constructor
    · rw [hscript]
      simp [batHeader]
    · intro i hi
      obtain ⟨pre, post, heq, _⟩ := compileBlocksFrom_locate tasks 1 i hnone hi
      have hadd : 1 + i = i + 1 := by omega
      rw [hadd] at heq
      constructor
      · rw [hscript, heq]
        have hmem := remLine_mem_block (i + 1) (tasks.getD i emptyTask)
        simp only [List.mem_append]
        tauto
      · intro hunk
        have hk := taskKindLines_unknown (tasks.getD i emptyTask) hunk
        have hblock : (taskBlockp (i + 1) (tasks.getD i emptyTask)).1 =
            [remLine (i + 1) (tasks.getD i emptyTask),
             execLine (i + 1) (tasks.getD i emptyTask)] ++
            ["echo Unknown task type: " ++ (tasks.getD i emptyTask).type] ++
            ["echo.", ""] := by
          unfold taskBlockp
          rw [hk]
        have hmem : ("echo Unknown task type: " ++ (tasks.getD i emptyTask).type)
            ∈ (taskBlockp (i + 1) (tasks.getD i emptyTask)).1 := by
          rw [hblock]
          simp
        rw [hscript, heq]
        simp only [List.mem_append]
        tauto

/-- Witness for C2 on a concrete list holding an unrecognized kind: the
compiled script is non-empty and contains the announcement and the
`Unknown task type` stub. -/
theorem c2_compiler_totality_witness :
    ((batResult [Task.mk "zzz" "x" ""] "a.txt").toOption.getD []) ≠ [] ∧
    remLine 1 (Task.mk "zzz" "x" "") ∈
      ((batResult [Task.mk "zzz" "x" ""] "a.txt").toOption.getD []) ∧
    ("echo Unknown task type: " ++ "zzz") ∈
      ((batResult [Task.mk "zzz" "x" ""] "a.txt").toOption.getD []) := by
  have h := (c2_compiler_totality [Task.mk "zzz" "x" ""] "a.txt").2
    ((batResult [Task.mk "zzz" "x" ""] "a.txt").toOption.getD []) (by rfl)
  refine ⟨h.1, (h.2 0 (by decide)).1, (h.2 0 (by decide)).2 (by decide)⟩

/-- Claim C6: the `open_url` block launches `https://` prepended to the
value when no scheme prefix is present and the value unchanged otherwise;
either way the block carries the `%ERRORLEVEL%`-keyed failure and success
branches.  In the scenario `[{open_url, "example.com"}, {delay, "3"}]` the
compiled script has the open instruction for `https://example.com` at line
11 and the 3-second wait instruction at line 25 — open before wait. -/
theorem c6_open_url_scheme (u : String) :
    (hasScheme u = false →
      ("start \"\" \"" ++ ("https://" ++ u) ++ "\"") ∈ urlLines u) ∧
    (hasScheme u = true → ("start \"\" \"" ++ u ++ "\"") ∈ urlLines u) ∧
    "if %ERRORLEVEL% NEQ 0 (" ∈ urlLines u ∧
    "    echo ERROR: Failed to open URL." ∈ urlLines u ∧
    ") else (" ∈ urlLines u ∧
    ("    echo Successfully opened URL: " ++
      (if hasScheme u then u else "https://" ++ u)) ∈ urlLines u ∧
    ((batResult [Task.mk "open_url" "example.com" "", Task.mk "delay" "3" ""]
        "tasks.txt").toOption.getD []).getD 11 "" =
      "start \"\" \"https://example.com\"" ∧
    ((batResult [Task.mk "open_url" "example.com" "", Task.mk "delay" "3" ""]
        "tasks.txt").toOption.getD []).getD 25 "" =
      "timeout /t 3 /nobreak >nul" := by
  refine ⟨?_, ?_, ?_, ?_, ?_, ?_, by decide, by decide⟩ <;>
    · first
      | (intro hs; simp [urlLines, hs])
      | (cases hs : hasScheme u <;> simp [urlLines, hs])

/-- Witness for C6 at the concrete URLs `example.com` (no scheme) and
`https://x` (scheme present). -/
theorem c6_open_url_scheme_witness :
    ("start \"\" \"" ++ ("https://" ++ "example.com") ++ "\"") ∈
      urlLines "example.com" ∧
    ("start \"\" \"" ++ "https://x" ++ "\"") ∈ urlLines "https://x" :=
  ⟨(c6_open_url_scheme "example.com").1 (by decide),
   (c6_open_url_scheme "https://x").2.1 (by decide)⟩

section PositionLemmas

private lemma getD_concat_block (pre mid post : List String) (k : Nat)
    (hk : k < mid.length) :
    (pre ++ mid ++ post).getD (pre.length + k) "" = mid.getD k "" := by
  rw [List.append_assoc, List.getD_eq_getElem?_getD,
    List.getElem?_append_right (Nat.le_add_right _ _),
    Nat.add_sub_cancel_left, List.getElem?_append_left hk,
    ← List.getD_eq_getElem?_getD]

private lemma drop_take_block (pre mid post : List String) :
    ((pre ++ mid ++ post).drop pre.length).take mid.length = mid := by
  rw [List.append_assoc, List.drop_left, List.take_left]

private lemma drop_append_le {α : Type} (B C : List α) :
    ∀ k : Nat, k ≤ B.length → (B ++ C).drop k = B.drop k ++ C := by
  induction B with
  | nil =>
      intro k hk
      have hk0 : k = 0 := by simpa using hk
      subst hk0
      simp
  | cons b B ih =>
      intro k hk
      cases k with
      | zero => simp
      | succ k => simpa using ih k (by simpa using hk)

private lemma drop_concat_block (pre mid post : List String) (k : Nat)
    (hk : k ≤ mid.length) :
    (pre ++ mid ++ post).drop (pre.length + k) = mid.drop k ++ post := by
  rw [List.append_assoc, ← List.drop_drop, List.drop_left, drop_append_le _ _ k hk]

private lemma firstIdx_cons_true (q : String → Bool) (s : String)
    (rest : List String) (h : q s = true) :
    firstIdx q (s :: rest) = some 0 := by
  simp [firstIdx, h]

private lemma firstIdx_append_none (q : String → Bool) :
    ∀ (a b : List String), (∀ s ∈ a, q s = false) →
      firstIdx q (a ++ b) = (firstIdx q b).map (· + a.length) := by
  intro a
  induction a with
  | nil =>
      intro b _
      rw [List.nil_append]
      cases hfb : firstIdx q b <;> simp [hfb]
  | cons s a ih =>
      intro b h
      have hs : q s = false := h s (by simp)
      simp only [List.cons_append, firstIdx, hs, Bool.false_eq_true, if_false,
        List.append_eq]
      rw [ih b (fun x hx => h x (by simp [hx]))]
      cases hfb : firstIdx q b <;> simp [hfb] <;> omega

private lemma gotoTarget_forward (lines : List String) (p : Nat) (lbl : String)
    (mid tail0 : List String) (hdrop : lines.drop (p + 1) = mid ++ tail0)
    (hmid : ∀ s ∈ mid, labelHit lbl s = false)
    (hhd : ∃ s rest, tail0 = s :: rest ∧ labelHit lbl s = true) :
    gotoTarget lines p lbl = some (p + 1 + mid.length) := by
  obtain ⟨s, rest, htail, hq⟩ := hhd
  unfold gotoTarget
  rw [hdrop, htail, firstIdx_append_none _ _ _ hmid, firstIdx_cons_true _ _ _ hq]
  simp

private lemma labelHit_false_head (lbl A rest : String) (c : Char)
    (cs : List Char)
    (hd : A.data.dropWhile (fun ch => ch == ' ' || ch == '\t') = c :: cs)
    (h3 : (c == ':') = false) :
    labelHit lbl (A ++ rest) = false := by
  unfold labelHit
  rw [String.data_append, List.dropWhile_append, hd]
  have hne : c ≠ ':' := beq_eq_false_iff_ne.mp h3
  simp [hne]

private lemma winPath_no_slash (d : String) :
    ∀ c ∈ (winPath d).data, ¬ c = '/' := by
  intro c hc hcc
  subst hcc
  simp only [winPath, List.mem_map] at hc
  obtain ⟨c0, _, hc0⟩ := hc
  by_cases h0 : c0 = '/'
  · rw [if_pos (by simp [h0])] at hc0
    exact absurd hc0 (by decide)
  · rw [if_neg (by simp [h0])] at hc0
    exact h0 hc0

private lemma hasPair_append_no_x (x y : Char) :
    ∀ (l r : List Char), (∀ c ∈ l, ¬(c = x)) →
      hasPair x y (l ++ r) = hasPair x y r := by
  intro l
  induction l with
  | nil => intro r _; rfl
  | cons c l ih =>
      intro r h
      have hc : (c == x) = false :=
        beq_eq_false_iff_ne.mpr (h c (by simp))
      cases l with
      | nil =>
          cases r with
          | nil => rfl
          | cons b r' => simp [hasPair, hc]
      | cons c2 l2 =>
          have h2 := ih r (fun z hz => h z (by simp [List.mem_cons] at hz ⊢; tauto))
          simp only [List.cons_append] at h2 ⊢
          show ((c == x && c2 == y) || hasPair x y (c2 :: (l2 ++ r))) =
            hasPair x y r
          rw [h2]
          simp [hc]

end PositionLemmas

/-- Claim C7: the `delete_folder_if_empty` block, located inside the
compiled script at the task's offset, is exactly the generated 15 lines: a
guarded non-recursive removal (`rmdir /q`, line 4 of the block — carrying no
`/s` recursive flag, so it cannot delete a non-empty directory), an
existence re-check immediately after it (line 5) whose then-branch prints
the could-not-delete warning and whose else-branch prints success, and an
outer else-branch printing the not-found warning without reaching the
removal instruction. -/
theorem c7_delete_folder_if_empty (tasks : List Task) (path : String)
    (script : List String) (i : Nat) (d a : String)
    (hok : batResult tasks path = .ok script)
    (hi : i < tasks.length)
    (ht : tasks.getD i emptyTask = Task.mk "delete_folder_if_empty" d a) :
    ((script.drop (blockOffset tasks i)).take 15 =
      [remLine (i + 1) (Task.mk "delete_folder_if_empty" d a),
       execLine (i + 1) (Task.mk "delete_folder_if_empty" d a)] ++
      deleteIfEmptyLines (winPath d) ++ ["echo.", ""]) ∧
    script.getD (blockOffset tasks i + 4) "" =
      "  rmdir /q \"" ++ winPath d ++ "\"" ∧
    hasPair '/' 's' ("  rmdir /q \"" ++ winPath d ++ "\"").data = false ∧
    script.getD (blockOffset tasks i + 5) "" =
      "  if exist \"" ++ winPath d ++ "\" (" := by
  obtain ⟨hnone, hscript⟩ := (batResult_ok_iff tasks path script).mp hok
  obtain ⟨pre, post, heq, hlen⟩ := compileBlocksFrom_locate tasks 1 i hnone hi
  rw [ht, Nat.add_comm 1 i] at heq
  have hblock : (taskBlockp (i + 1) (Task.mk "delete_folder_if_empty" d a)).1 =
      [remLine (i + 1) (Task.mk "delete_folder_if_empty" d a),
       execLine (i + 1) (Task.mk "delete_folder_if_empty" d a)] ++
      deleteIfEmptyLines (winPath d) ++ ["echo.", ""] := rfl
  rw [hblock] at heq
  set B := [remLine (i + 1) (Task.mk "delete_folder_if_empty" d a),
       execLine (i + 1) (Task.mk "delete_folder_if_empty" d a)] ++
      deleteIfEmptyLines (winPath d) ++ ["echo.", ""] with hB
  have hs2 : script = (batHeader path ++ pre) ++ B ++ (post ++ batFooter) := by
    rw [hscript, heq]
    simp [List.append_assoc]
  have hoff : (batHeader path ++ pre).length = blockOffset tasks i := by
    simp [batHeader, hlen, blockOffset] <;> omega
  have hBlen : B.length = 15 := by
    simp [hB, deleteIfEmptyLines]
  refine ⟨?_, ?_, ?_, ?_⟩
  · rw [hs2, ← hoff, ← hBlen]
    exact drop_take_block _ _ _
  · have hb4 : 4 < B.length := by rw [hBlen]; omega
    rw [hs2, ← hoff, getD_concat_block _ _ _ 4 hb4]
    rfl
  · rw [show ("  rmdir /q \"" ++ winPath d ++ "\"").data =
        ([' ', ' ', 'r', 'm', 'd', 'i', 'r', ' ', '/', 'q', ' ', '\"'] ++
          ((winPath d).data ++ ['\"'])) from by
          simp [String.data_append]]
    have h1 : ∀ c ∈ ('\"' :: (winPath d).data), ¬ c = '/' := by
      intro c hc
      rcases List.mem_cons.mp hc with h | h
      · subst h; decide
      · exact winPath_no_slash d c h
    calc hasPair '/' 's'
          ([' ', ' ', 'r', 'm', 'd', 'i', 'r', ' ', '/', 'q', ' ', '\"'] ++
            ((winPath d).data ++ ['\"']))
        = hasPair '/' 's' (('\"' :: (winPath d).data) ++ ['\"']) := by
          simp [hasPair]
      _ = hasPair '/' 's' ['\"'] := hasPair_append_no_x '/' 's' _ _ h1
      _ = false := rfl
  · have hb5 : 5 < B.length := by rw [hBlen]; omega
    rw [hs2, ← hoff, getD_concat_block _ _ _ 5 hb5]
    rfl

/-- Witness for C7 on a concrete two-task sequence with the
`delete_folder_if_empty` task second (path with a forward slash to exercise
the normalization). -/
theorem c7_delete_folder_if_empty_witness :
    ((((batResult [Task.mk "sleep" "" "",
          Task.mk "delete_folder_if_empty" "C:/tmp/x" ""]
        "t.txt").toOption.getD []).drop
      (blockOffset [Task.mk "sleep" "" "",
          Task.mk "delete_folder_if_empty" "C:/tmp/x" ""] 1)).take 15 =
      [remLine 2 (Task.mk "delete_folder_if_empty" "C:/tmp/x" ""),
       execLine 2 (Task.mk "delete_folder_if_empty" "C:/tmp/x" "")] ++
      deleteIfEmptyLines (winPath "C:/tmp/x") ++ ["echo.", ""]) ∧
    ((batResult [Task.mk "sleep" "" "",
          Task.mk "delete_folder_if_empty" "C:/tmp/x" ""]
        "t.txt").toOption.getD []).getD
      (blockOffset [Task.mk "sleep" "" "",
          Task.mk "delete_folder_if_empty" "C:/tmp/x" ""] 1 + 4) "" =
      "  rmdir /q \"" ++ winPath "C:/tmp/x" ++ "\"" ∧
    hasPair '/' 's' ("  rmdir /q \"" ++ winPath "C:/tmp/x" ++ "\"").data = false ∧
    ((batResult [Task.mk "sleep" "" "",
          Task.mk "delete_folder_if_empty" "C:/tmp/x" ""]
        "t.txt").toOption.getD []).getD
      (blockOffset [Task.mk "sleep" "" "",
          Task.mk "delete_folder_if_empty" "C:/tmp/x" ""] 1 + 5) "" =
      "  if exist \"" ++ winPath "C:/tmp/x" ++ "\" (" :=
  c7_delete_folder_if_empty
    [Task.mk "sleep" "" "", Task.mk "delete_folder_if_empty" "C:/tmp/x" ""]
    "t.txt"
    ((batResult [Task.mk "sleep" "" "",
        Task.mk "delete_folder_if_empty" "C:/tmp/x" ""]
      "t.txt").toOption.getD [])
    1 "C:/tmp/x" "" (by rfl) (by decide) (by rfl)

section BackupLemmas

private lemma backup_goto_aux (A B C : List String) (o g : Nat)
    (hoff : A.length = o) (hk : g + 1 ≤ B.length)
    (mid tail1 : List String)
    (hsplit : B.drop (g + 1) = mid ++ tail1)
    (hmid : ∀ s ∈ mid, labelHit "backup_error" s = false)
    (hhd : ∃ s rest, tail1 ++ C = s :: rest ∧ labelHit "backup_error" s = true) :
    gotoTarget (A ++ B ++ C) (o + g) "backup_error" =
      some (o + g + 1 + mid.length) := by
  apply gotoTarget_forward _ _ _ mid (tail1 ++ C) ?_ hmid hhd
  have h1 : o + g + 1 = A.length + (g + 1) := by omega
  rw [h1, drop_concat_block A B C (g + 1) hk, hsplit, List.append_assoc]

end BackupLemmas

/-- Claim C5: for every position of a `backup_folder` task — also in
sequences with several of them — the compiled block occupies lines
`o .. o+36` of the script (`o` the task's offset): the source-existence
check sits at `o+4` and the destination-creation checks before the `xcopy`
copy instruction at `o+24`; each of the four precondition-failure
`goto :backup_error` lines (at `o+6`, `o+12`, `o+21`, `o+27`) resolves,
under cmd.exe's forward label scan, to this same block's `:backup_error`
label at `o+32` — strictly after the copy instruction (so the copy is
jumped over) and strictly before the block's end at `o+37` (so no other
task's block is skipped or re-entered), where the failure message is
printed. -/
theorem c5_backup_error_label (tasks : List Task) (path : String)
    (script : List String) (i : Nat) (d a : String)
    (hok : batResult tasks path = .ok script)
    (hi : i < tasks.length)
    (ht : tasks.getD i emptyTask = Task.mk "backup_folder" d a) :
    ((script.drop (blockOffset tasks i)).take 37 =
      [remLine (i + 1) (Task.mk "backup_folder" d a),
       execLine (i + 1) (Task.mk "backup_folder" d a)] ++
      backupLines (winPath d) (winPath a) ++ ["echo.", ""]) ∧
    script.getD (blockOffset tasks i + 4) "" =
      "if not exist \"" ++ winPath d ++ "\" (" ∧
    script.getD (blockOffset tasks i + 24) "" =
      "xcopy \"" ++ winPath d ++ "\\*\" \"%dest_path%\" /E /H /C /I /Y" ∧
    script.getD (blockOffset tasks i + 32) "" = ":backup_error" ∧
    gotoTarget script (blockOffset tasks i + 6) "backup_error" =
      some (blockOffset tasks i + 32) ∧
    gotoTarget script (blockOffset tasks i + 12) "backup_error" =
      some (blockOffset tasks i + 32) ∧
    gotoTarget script (blockOffset tasks i + 21) "backup_error" =
      some (blockOffset tasks i + 32) ∧
    gotoTarget script (blockOffset tasks i + 27) "backup_error" =
      some (blockOffset tasks i + 32) := by
  obtain ⟨hnone, hscript⟩ := (batResult_ok_iff tasks path script).mp hok
  obtain ⟨pre, post, heq, hlen⟩ := compileBlocksFrom_locate tasks 1 i hnone hi
  rw [ht, Nat.add_comm 1 i] at heq
  have hblock : (taskBlockp (i + 1) (Task.mk "backup_folder" d a)).1 =
      [remLine (i + 1) (Task.mk "backup_folder" d a),
       execLine (i + 1) (Task.mk "backup_folder" d a)] ++
      backupLines (winPath d) (winPath a) ++ ["echo.", ""] := rfl
  rw [hblock] at heq
  set P := winPath d with hP
  set Q := winPath a with hQ
  set B := [remLine (i + 1) (Task.mk "backup_folder" d a),
       execLine (i + 1) (Task.mk "backup_folder" d a)] ++
      backupLines P Q ++ ["echo.", ""] with hB
  have hs2 : script = (batHeader path ++ pre) ++ B ++ (post ++ batFooter) := by
    rw [hscript, heq]
    simp [List.append_assoc]
  have hoff : (batHeader path ++ pre).length = blockOffset tasks i := by
    simp only [List.length_append, batHeader, List.length_cons,
      List.length_nil, hlen, blockOffset]
  have hBlen : B.length = 37 := by
    simp [hB, backupLines]
  set mid6 : List String :=
    [")",
     "if not exist \"" ++ Q ++ "\" (",
     "  mkdir \"" ++ Q ++ "\"",
     "  if %ERRORLEVEL% NEQ 0 (",
     "    echo ERROR: Could not create destination folder: " ++ Q,
     "    goto :backup_error",
     "  )",
     ")",
     "for %%I in (\"" ++ P ++ "\") do set \"source_name=%%~nxI\"",
     "set \"dest_path=" ++ Q ++ "\\%source_name%\"",
     "if not exist \"%dest_path%\" (",
     "  mkdir \"%dest_path%\"",
     "  if %ERRORLEVEL% NEQ 0 (",
     "    echo ERROR: Could not create destination folder: %dest_path%",
     "    goto :backup_error",
     "  )",
     ")",
     "xcopy \"" ++ P ++ "\\*\" \"%dest_path%\" /E /H /C /I /Y",
     "if %ERRORLEVEL% NEQ 0 (",
     "  echo ERROR: Backup operation failed",
     "  goto :backup_error",
     ") else (",
     "  echo Successfully backed up " ++ P ++ " to %dest_path%",
     ")",
     "goto :backup_end"] with hmid6def
  set tail1 : List String :=
    [":backup_error", "echo Backup operation failed", ":backup_end",
     "echo.", ""] with htail1def
  have hmid6 : ∀ s ∈ mid6, labelHit "backup_error" s = false := by
    intro s hs
    simp only [hmid6def, List.mem_cons, List.not_mem_nil, or_false] at hs
    rcases hs with rfl | rfl | rfl | rfl | rfl | rfl | rfl | rfl | rfl | rfl |
      rfl | rfl | rfl | rfl | rfl | rfl | rfl | rfl | rfl | rfl | rfl | rfl |
      rfl | rfl | rfl
    all_goals first
      | decide
      | exact labelHit_false_head _ _ _ _ _ rfl rfl
  have hhd : ∃ s rest, tail1 ++ (post ++ batFooter) = s :: rest ∧
      labelHit "backup_error" s = true :=
    ⟨":backup_error",
     ["echo Backup operation failed", ":backup_end", "echo.", ""] ++
       (post ++ batFooter), rfl, by decide⟩
  have hg : ∀ g mid, B.drop (g + 1) = mid ++ tail1 →
      (∀ s ∈ mid, labelHit "backup_error" s = false) →
      g + 1 ≤ B.length →
      gotoTarget script (blockOffset tasks i + g) "backup_error" =
        some (blockOffset tasks i + g + 1 + mid.length) := by
    intro g mid hsplit hmid hk
    rw [hs2]
    exact backup_goto_aux _ _ _ _ g hoff hk mid tail1 hsplit hmid hhd
  have hsub : ∀ k, ∀ s ∈ mid6.drop k, labelHit "backup_error" s = false :=
    fun k s hs => hmid6 s (List.drop_subset k mid6 hs)
  refine ⟨?_, ?_, ?_, ?_, ?_, ?_, ?_, ?_⟩
  · rw [hs2, ← hoff, ← hBlen]
    exact drop_take_block _ _ _
  · have hb : 4 < B.length := by rw [hBlen]; omega
    rw [hs2, ← hoff, getD_concat_block _ _ _ 4 hb]
    rfl
  · have hb : 24 < B.length := by rw [hBlen]; omega
    rw [hs2, ← hoff, getD_concat_block _ _ _ 24 hb]
    rfl
  · have hb : 32 < B.length := by rw [hBlen]; omega
    rw [hs2, ← hoff, getD_concat_block _ _ _ 32 hb]
    rfl
  · have h := hg 6 mid6 rfl hmid6 (by rw [hBlen]; omega)
    rw [h]
    congr 1
  · have h := hg 12 (mid6.drop 6) rfl (hsub 6) (by rw [hBlen]; omega)
    rw [h]
    congr 1
  · have h := hg 21 (mid6.drop 15) rfl (hsub 15) (by rw [hBlen]; omega)
    rw [h]
    congr 1
  · have h := hg 27 (mid6.drop 21) rfl (hsub 21) (by rw [hBlen]; omega)
    rw [h]
    congr 1

/-- Witness for C5 on a sequence with two `backup_folder` tasks, applied at
the second one (offset 43 = 6 header lines + 37 lines of the first block). -/
theorem c5_backup_error_label_witness :
    ((((batResult [Task.mk "backup_folder" "C:/s1" "C:/d1",
          Task.mk "backup_folder" "C:/s2" "C:/d2"] "b.txt").toOption.getD
        []).drop
      (blockOffset [Task.mk "backup_folder" "C:/s1" "C:/d1",
          Task.mk "backup_folder" "C:/s2" "C:/d2"] 1)).take 37 =
      [remLine 2 (Task.mk "backup_folder" "C:/s2" "C:/d2"),
       execLine 2 (Task.mk "backup_folder" "C:/s2" "C:/d2")] ++
      backupLines (winPath "C:/s2") (winPath "C:/d2") ++ ["echo.", ""]) ∧
    ((batResult [Task.mk "backup_folder" "C:/s1" "C:/d1",
          Task.mk "backup_folder" "C:/s2" "C:/d2"] "b.txt").toOption.getD
        []).getD
      (blockOffset [Task.mk "backup_folder" "C:/s1" "C:/d1",
          Task.mk "backup_folder" "C:/s2" "C:/d2"] 1 + 4) "" =
      "if not exist \"" ++ winPath "C:/s2" ++ "\" (" ∧
    ((batResult [Task.mk "backup_folder" "C:/s1" "C:/d1",
          Task.mk "backup_folder" "C:/s2" "C:/d2"] "b.txt").toOption.getD
        []).getD
      (blockOffset [Task.mk "backup_folder" "C:/s1" "C:/d1",
          Task.mk "backup_folder" "C:/s2" "C:/d2"] 1 + 24) "" =
      "xcopy \"" ++ winPath "C:/s2" ++ "\\*\" \"%dest_path%\" /E /H /C /I /Y" ∧
    ((batResult [Task.mk "backup_folder" "C:/s1" "C:/d1",
          Task.mk "backup_folder" "C:/s2" "C:/d2"] "b.txt").toOption.getD
        []).getD
      (blockOffset [Task.mk "backup_folder" "C:/s1" "C:/d1",
          Task.mk "backup_folder" "C:/s2" "C:/d2"] 1 + 32) "" =
      ":backup_error" ∧
    gotoTarget ((batResult [Task.mk "backup_folder" "C:/s1" "C:/d1",
          Task.mk "backup_folder" "C:/s2" "C:/d2"] "b.txt").toOption.getD [])
      (blockOffset [Task.mk "backup_folder" "C:/s1" "C:/d1",
          Task.mk "backup_folder" "C:/s2" "C:/d2"] 1 + 6) "backup_error" =
      some (blockOffset [Task.mk "backup_folder" "C:/s1" "C:/d1",
          Task.mk "backup_folder" "C:/s2" "C:/d2"] 1 + 32) ∧
    gotoTarget ((batResult [Task.mk "backup_folder" "C:/s1" "C:/d1",
          Task.mk "backup_folder" "C:/s2" "C:/d2"] "b.txt").toOption.getD [])
      (blockOffset [Task.mk "backup_folder" "C:/s1" "C:/d1",
          Task.mk "backup_folder" "C:/s2" "C:/d2"] 1 + 12) "backup_error" =
      some (blockOffset [Task.mk "backup_folder" "C:/s1" "C:/d1",
          Task.mk "backup_folder" "C:/s2" "C:/d2"] 1 + 32) ∧
    gotoTarget ((batResult [Task.mk "backup_folder" "C:/s1" "C:/d1",
          Task.mk "backup_folder" "C:/s2" "C:/d2"] "b.txt").toOption.getD [])
      (blockOffset [Task.mk "backup_folder" "C:/s1" "C:/d1",
          Task.mk "backup_folder" "C:/s2" "C:/d2"] 1 + 21) "backup_error" =
      some (blockOffset [Task.mk "backup_folder" "C:/s1" "C:/d1",
          Task.mk "backup_folder" "C:/s2" "C:/d2"] 1 + 32) ∧
    gotoTarget ((batResult [Task.mk "backup_folder" "C:/s1" "C:/d1",
          Task.mk "backup_folder" "C:/s2" "C:/d2"] "b.txt").toOption.getD [])
      (blockOffset [Task.mk "backup_folder" "C:/s1" "C:/d1",
          Task.mk "backup_folder" "C:/s2" "C:/d2"] 1 + 27) "backup_error" =
      some (blockOffset [Task.mk "backup_folder" "C:/s1" "C:/d1",
          Task.mk "backup_folder" "C:/s2" "C:/d2"] 1 + 32) :=
  c5_backup_error_label
    [Task.mk "backup_folder" "C:/s1" "C:/d1",
     Task.mk "backup_folder" "C:/s2" "C:/d2"] "b.txt"
    ((batResult [Task.mk "backup_folder" "C:/s1" "C:/d1",
        Task.mk "backup_folder" "C:/s2" "C:/d2"] "b.txt").toOption.getD [])
    1 "C:/s2" "C:/d2" (by rfl) (by decide) (by rfl)

section SaveLemmas

private lemma isPrefixOf_self_append :
    ∀ (a b : List Char), a.isPrefixOf (a ++ b) = true := by
  intro a b
  induction a with
  | nil => cases b <;> simp [List.isPrefixOf]
  | cons c a ih => simp [List.isPrefixOf, ih]

private lemma pyLower_append (p q : String) :
    pyLower (p ++ q) = pyLower p ++ pyLower q := by
  simp [pyLower, String.data_append]
  rfl

private lemma txtSavePath_endsWith (p : String) :
    pyEndsWith (pyLower (txtSavePath p)) ".txt" = true := by
  unfold txtSavePath
  by_cases h : pyEndsWith (pyLower p) ".txt" = true
  · rw [if_pos h]
    exact h
  · rw [if_neg h, pyLower_append,
      show pyLower ".txt" = ".txt" from by decide]
    unfold pyEndsWith List.isSuffixOf
    rw [String.data_append, List.reverse_append]
    exact isPrefixOf_self_append _ _

end SaveLemmas

/-- Claim C10: every save writes exactly two files, in order: the task text
at the adjusted path (which always ends in `.txt` case-insensitively after
the adjustment), then — as an unconditional side effect — the compiled
script at the same base name with the `.bat` extension.  When some `delay`
task has a non-numeric value, the compilation raise makes `save_tasks`
itself report the wrapped error, although the text file write (event 0) has
already happened; otherwise the save succeeds and the second event carries
the full compiled script. -/
theorem c10_save_compiles_bat (now : String) (tasks : List Task)
    (file_path : String) :
    ((save_tasks now tasks file_path).1.map Prod.fst =
      [txtSavePath file_path, get_bat_path (txtSavePath file_path)]) ∧
    (save_tasks now tasks file_path).1.getD 0 ("", "") =
      (txtSavePath file_path, serializeText now tasks) ∧
    pyEndsWith (pyLower (txtSavePath file_path)) ".txt" = true ∧
    ((∃ t ∈ tasks, t.type = "delay" ∧ pyInt t.details = none) →
      exceptErr (save_tasks now tasks file_path).2 = true) ∧
    ((¬ ∃ t ∈ tasks, t.type = "delay" ∧ pyInt t.details = none) →
      (save_tasks now tasks file_path).2 = .ok (txtSavePath file_path) ∧
      (save_tasks now tasks file_path).1.getD 1 ("", "") =
        (get_bat_path (txtSavePath file_path),
         linesText ((batResult tasks (txtSavePath file_path)).toOption.getD []))) := by
  have herr := compileBlocksFrom_err tasks 1
  unfold save_tasks convert_to_bat batResult
  cases hc : (compileBlocksFrom 1 tasks).2 with
  | none =>
      refine ⟨by simp [hc], by simp [hc], txtSavePath_endsWith file_path, ?_, ?_⟩
      · intro hbad
        rw [hc] at herr
        exact absurd (herr.mpr hbad) (by simp)
      · intro _
        exact ⟨by simp [hc], by simp [hc, convert_to_bat, Except.toOption]⟩
  | some e =>
      refine ⟨by simp [hc], by simp [hc], txtSavePath_endsWith file_path, ?_, ?_⟩
      · intro _
        simp [hc, exceptErr]
      · intro hben
        rw [hc] at herr
        exact absurd (herr.mp (by simp)) hben

/-- Witness for C10: a failing save (non-numeric delay) that still wrote
the txt file first, and a succeeding save on a path without extension. -/
theorem c10_save_compiles_bat_witness :
    (save_tasks "2024-01-01" [Task.mk "delay" "abc" ""] "My Tasks").1.map
      Prod.fst = [txtSavePath "My Tasks", get_bat_path (txtSavePath "My Tasks")] ∧
    (save_tasks "2024-01-01" [Task.mk "delay" "abc" ""] "My Tasks").1.getD 0
      ("", "") = (txtSavePath "My Tasks", serializeText "2024-01-01"
        [Task.mk "delay" "abc" ""]) ∧
    exceptErr (save_tasks "2024-01-01" [Task.mk "delay" "abc" ""] "My Tasks").2 =
      true ∧
    (save_tasks "2024-01-01" [Task.mk "open_url" "example.com" ""] "t.TXT").2 =
      .ok (txtSavePath "t.TXT") :=
  ⟨(c10_save_compiles_bat "2024-01-01" [Task.mk "delay" "abc" ""] "My Tasks").1,
   (c10_save_compiles_bat "2024-01-01" [Task.mk "delay" "abc" ""] "My Tasks").2.1,
   (c10_save_compiles_bat "2024-01-01" [Task.mk "delay" "abc" ""] "My Tasks").2.2.2.1
     ⟨Task.mk "delay" "abc" "", by decide, by decide, by decide⟩,
   ((c10_save_compiles_bat "2024-01-01" [Task.mk "open_url" "example.com" ""]
     "t.TXT").2.2.2.2 (by decide)).1⟩

end AutoSpark
